import Mathlib

/-!
Shallow embedding of the Arrow list-array module
(`rust/arrow/src/array/array_list.rs`) together with proofs of the
specification claims about it.

The module under verification defines `GenericListArray<OffsetSize>`
(variable-width lists indexed by an offset buffer, `OffsetSize` in
`{i32, i64}`), `FixedSizeListArray` (stride-indexed lists with no offset
buffer), their construction from a generic array-data snapshot, memory
accounting, and factories for empty typed list arrays.

External collaborators (the array-data snapshot, buffers, the generic
`Array::slice`, and the builder types) are not part of the module; those
are modelled from the specification and marked as such in their doc
comments.  Machine integers are modelled as `Int` with explicit wrapping
(`% 2 ^ w`) where the source performs fixed-width arithmetic.
-/

namespace Arrow

/-- Time units of the external type-descriptor system (`TimeUnit`). -/
inductive TimeUnit
  | Second
  | Millisecond
  | Microsecond
  | Nanosecond
  deriving DecidableEq

/-- Date units of the external type-descriptor system (`DateUnit`). -/
inductive DateUnit
  | Day
  | Millisecond
  deriving DecidableEq

/-- Modelled from the spec: the external type-descriptor enumeration
(`DataType`), restricted to the constructors this module dispatches on,
plus representatives (`Null`, the nested list types) that lie outside the
factory's supported element-type set.  The boxed `Field` of the list
variants is inlined as (name, item type, nullable). -/
inductive DataType
  | Null
  | Boolean
  | Int8
  | Int16
  | Int32
  | Int64
  | UInt8
  | UInt16
  | UInt32
  | UInt64
  | Float32
  | Float64
  | Utf8
  | Binary
  | Date32 (unit : DateUnit)
  | Date64 (unit : DateUnit)
  | Time32 (unit : TimeUnit)
  | Time64 (unit : TimeUnit)
  | Duration (unit : TimeUnit)
  | Timestamp (unit : TimeUnit) (timezone : Option String)
  | List (itemName : String) (itemType : DataType) (itemNullable : Bool)
  | LargeList (itemName : String) (itemType : DataType) (itemNullable : Bool)
  | FixedSizeList (itemName : String) (itemType : DataType) (itemNullable : Bool)
      (listSize : Int)
  deriving DecidableEq, Inhabited

/-- Modelled from the spec: the values (child) array of a list array — a
leaf array-data snapshot with a type tag, logical length, logical offset
and one data buffer whose entries we keep as mathematical integers. -/
structure ValuesData where
  dataType : DataType
  len : Nat
  offset : Nat
  values : List Int
  deriving DecidableEq, Inhabited

/-- Modelled from the spec: the external array-data snapshot — type tag,
logical length, logical offset, ordered raw buffers (each a sequence of
offset-width integers), ordered child array-data.  The validity bitmap is
owned by this external layer and plays no role in the claims, so it is
omitted. -/
structure ArrayData where
  dataType : DataType
  len : Nat
  offset : Nat
  buffers : List (List Int)
  childData : List ValuesData
  deriving DecidableEq, Inhabited

/-- Modelled from the spec: zero-copy slicing of an array view — a new
view over the same buffers with adjusted logical offset and length, never
a copy (`Array::slice` of the external array layer). -/
def ArrayData.slice (d : ArrayData) (offset len : Nat) : ArrayData :=
  { d with offset := d.offset + offset, len := len }

/-- Modelled from the spec: zero-copy slicing of the values array. -/
def ValuesData.slice (v : ValuesData) (offset len : Nat) : ValuesData :=
  { v with offset := v.offset + offset, len := len }

/-- The two offset widths admitted by `OffsetSizeTrait` (`i32` and `i64`). -/
inductive OffsetWidth
  | i32
  | i64
  deriving DecidableEq

/-- Bit width of an offset integer. -/
def OffsetWidth.bits : OffsetWidth → Nat
  | .i32 => 32
  | .i64 => 64

/-- Two's-complement wrap of a mathematical integer to a signed
`bits`-wide machine integer. -/
def wrapInt (bits : Nat) (n : Int) : Int :=
  (n + 2 ^ (bits - 1)) % 2 ^ bits - 2 ^ (bits - 1)

/-- The `i as i32` cast / `i32` wrapping arithmetic of the source. -/
def toI32 (n : Int) : Int :=
  wrapInt 32 n

/-- `OffsetSize::to_usize(..).unwrap()`: succeeds exactly on non-negative
values; `none` models the panic of `unwrap` on a failed conversion. -/
def usizeOfInt (n : Int) : Option Nat :=
  if 0 ≤ n then some n.toNat else none

/-- The `x as usize` cast of an `i32` value on a 64-bit platform:
sign-extension reinterpreted as an unsigned 64-bit quantity. -/
def usizeOfI32 (n : Int) : Nat :=
  (n % 2 ^ 64).toNat

/-- `GenericListArray<OffsetSize>`: the wrapped snapshot, the values
array made from its single child, and its single raw buffer interpreted
as a sequence of offset-width integers.  The width parameter is carried
as a field; buffer entries of either width are modelled as `Int`. -/
structure GenericListArray where
  offsetWidth : OffsetWidth
  data : ArrayData
  values : ValuesData
  value_offsets : List Int
  deriving DecidableEq

/-- `GenericListArray::value_type`: the element type of the values array. -/
def GenericListArray.value_type (a : GenericListArray) : DataType :=
  a.values.dataType

/-- `GenericListArray::value_offset_at`: the unchecked raw-pointer read
`*self.value_offsets.as_ptr().add(i)`.  An out-of-range read is undefined
behavior in the source; the model returns a default of `0` there, and
every theorem that touches an entry carries an in-bounds hypothesis. -/
def GenericListArray.value_offset_at (a : GenericListArray) (i : Nat) : Int :=
  a.value_offsets.getD i 0

/-- `GenericListArray::value_offset`: offset-buffer entry at absolute
position `self.data.offset() + i`; no bounds check. -/
def GenericListArray.value_offset (a : GenericListArray) (i : Nat) : Int :=
  a.value_offset_at (a.data.offset + i)

/-- `GenericListArray::value_length`: `i += self.data.offset();
self.value_offset_at(i + 1) - self.value_offset_at(i)`; the subtraction
is machine subtraction at the offset width; no bounds check. -/
def GenericListArray.value_length (a : GenericListArray) (i : Nat) : Int :=
  wrapInt a.offsetWidth.bits
    (a.value_offset_at (i + a.data.offset + 1) - a.value_offset_at (i + a.data.offset))

/-- `GenericListArray::value`: zero-copy slice of the values array at
`value_offset(i)` of length `value_length(i)`, converting both through
`to_usize().unwrap()` (which panics — `none` — on a negative value). -/
def GenericListArray.value (a : GenericListArray) (i : Nat) : Option ValuesData := do
  let o ← usizeOfInt (a.value_offset i)
  let l ← usizeOfInt (a.value_length i)
  pure (a.values.slice o l)

/-- Which structural count an assertion at construction was about. -/
inductive ShapePart
  | buffer
  | childArray
  deriving DecidableEq

/-- The construction-failure taxonomy of the specification; each variant
embeds one of the fatal assertions of the source's `From<ArrayDataRef>`
implementations. -/
inductive ConstructError
  | ShapeMismatch (part : ShapePart)
  | OffsetConventionViolation
  | StrideMismatch
  | TypeTagMismatch
  deriving DecidableEq

/-- `impl From<ArrayDataRef> for GenericListArray<OffsetSize>`: asserts a
single buffer ("ListArray data should contain a single buffer only"),
a single child array ("ListArray should contain a single child array"),
then that the absolute entry at buffer index 0 is zero ("offsets do not
start at zero").  Fatal assertions are modelled as `Except` errors. -/
def GenericListArray.fromData (w : OffsetWidth) (data : ArrayData) :
    Except ConstructError GenericListArray :=
  if data.buffers.length ≠ 1 then
    .error (.ShapeMismatch .buffer)
  else if data.childData.length ≠ 1 then
    .error (.ShapeMismatch .childArray)
  else if (data.buffers.getD 0 []).getD 0 0 = 0 then
    .ok ⟨w, data, data.childData.getD 0 default, data.buffers.getD 0 []⟩
  else
    .error .OffsetConventionViolation

/-- `FixedSizeListArray`: the wrapped snapshot, the values array made
from its single child, and the declared stride (`length : i32`). -/
structure FixedSizeListArray where
  data : ArrayData
  values : ValuesData
  length : Int
  deriving DecidableEq

/-- `FixedSizeListArray::value_type`. -/
def FixedSizeListArray.value_type (a : FixedSizeListArray) : DataType :=
  a.values.dataType

/-- `FixedSizeListArray::value_offset_at`: `i as i32 * self.length` — the
index is truncated to `i32` before the `i32` multiplication. -/
def FixedSizeListArray.value_offset_at (a : FixedSizeListArray) (i : Nat) : Int :=
  toI32 (toI32 (i : Int) * a.length)

/-- `FixedSizeListArray::value_offset`: `value_offset_at(self.data.offset() + i)`;
no bounds check. -/
def FixedSizeListArray.value_offset (a : FixedSizeListArray) (i : Nat) : Int :=
  a.value_offset_at (a.data.offset + i)

/-- `FixedSizeListArray::value_length`: the single stride constant,
independent of any index. -/
def FixedSizeListArray.value_length (a : FixedSizeListArray) : Int :=
  a.length

/-- `FixedSizeListArray::value`: zero-copy slice of the values array at
`value_offset(i) as usize` of length `value_length() as usize`. -/
def FixedSizeListArray.value (a : FixedSizeListArray) (i : Nat) : ValuesData :=
  a.values.slice (usizeOfI32 (a.value_offset i)) (usizeOfI32 a.value_length)

/-- `impl From<ArrayDataRef> for FixedSizeListArray`: asserts zero
buffers, a single child array, a `FixedSizeList` type tag, and — when the
declared stride is positive — that the values length is an exact multiple
of the stride ("child array length should be a multiple of ..."). -/
def FixedSizeListArray.fromData (data : ArrayData) :
    Except ConstructError FixedSizeListArray :=
  if data.buffers.length ≠ 0 then
    .error (.ShapeMismatch .buffer)
  else if data.childData.length ≠ 1 then
    .error (.ShapeMismatch .childArray)
  else
    match data.dataType with
    | .FixedSizeList _ _ _ len =>
        if 0 < len then
          if (data.childData.getD 0 default).len % len.toNat ≠ 0 then
            .error .StrideMismatch
          else
            .ok ⟨data, data.childData.getD 0 default, len⟩
        else
          .ok ⟨data, data.childData.getD 0 default, len⟩
    | _ => .error .TypeTagMismatch

/-- Modelled from the spec: buffer-memory accounting of the values
array — the bytes of the buffers it owns, with entry count standing in
for byte capacity. -/
def ValuesData.get_buffer_memory_size (v : ValuesData) : Nat :=
  v.values.length

/-- Modelled from the spec: buffer-memory accounting of the external
array-data snapshot — the raw buffers the snapshot itself owns, not its
children's (entry count standing in for byte capacity). -/
def ArrayData.get_buffer_memory_size (d : ArrayData) : Nat :=
  (d.buffers.map List.length).sum

/-- `GenericListArray::get_buffer_memory_size`: delegates to the
snapshot's own accounting only — the values array's buffers are
excluded. -/
def GenericListArray.get_buffer_memory_size (a : GenericListArray) : Nat :=
  a.data.get_buffer_memory_size

/-- `FixedSizeListArray::get_buffer_memory_size`: the snapshot's own
accounting plus the values array's accounting. -/
def FixedSizeListArray.get_buffer_memory_size (a : FixedSizeListArray) : Nat :=
  a.data.get_buffer_memory_size + a.values.get_buffer_memory_size

/-- Modelled from the spec: the result of finalizing a zero-capacity
generic list builder — a length-0 list array of the given offset width
whose element type matches the requested leaf type. -/
structure EmptyListArray where
  offsetWidth : OffsetWidth
  len : Nat
  value_type : DataType
  deriving DecidableEq

/-- Modelled from the spec: the result of finalizing a zero-capacity
fixed-size list builder (stride 0) — a length-0 fixed-size list array
whose element type matches the requested leaf type. -/
structure EmptyFixedSizeListArray where
  len : Nat
  value_type : DataType
  deriving DecidableEq

/-- The recoverable error family of the module; the factories return
`ArrowError::NotYetImplemented` carrying a description of the rejected
element type (modelled by carrying the rejected type itself, from which
the source formats its message string). -/
inductive ArrowError
  | NotYetImplemented (itemType : DataType)
  deriving DecidableEq

/-- `build_empty_list_array::<OffsetSize>`: exhaustive dispatch over the
supported leaf types, one arm per source arm and in source order;
unsupported types fall to the default arm and return the recoverable
`NotYetImplemented` error carrying the rejected type. -/
def build_empty_list_array (w : OffsetWidth) (item_type : DataType) :
    Except ArrowError EmptyListArray :=
  match item_type with
  | .UInt8 => .ok ⟨w, 0, .UInt8⟩
  | .UInt16 => .ok ⟨w, 0, .UInt16⟩
  | .UInt32 => .ok ⟨w, 0, .UInt32⟩
  | .UInt64 => .ok ⟨w, 0, .UInt64⟩
  | .Int8 => .ok ⟨w, 0, .Int8⟩
  | .Int16 => .ok ⟨w, 0, .Int16⟩
  | .Int32 => .ok ⟨w, 0, .Int32⟩
  | .Int64 => .ok ⟨w, 0, .Int64⟩
  | .Float32 => .ok ⟨w, 0, .Float32⟩
  | .Float64 => .ok ⟨w, 0, .Float64⟩
  | .Boolean => .ok ⟨w, 0, .Boolean⟩
  | .Date32 u => .ok ⟨w, 0, .Date32 u⟩
  | .Date64 u => .ok ⟨w, 0, .Date64 u⟩
  | .Time32 .Second => .ok ⟨w, 0, .Time32 .Second⟩
  | .Time32 .Millisecond => .ok ⟨w, 0, .Time32 .Millisecond⟩
  | .Time64 .Microsecond => .ok ⟨w, 0, .Time64 .Microsecond⟩
  | .Time64 .Nanosecond => .ok ⟨w, 0, .Time64 .Nanosecond⟩
  | .Duration .Second => .ok ⟨w, 0, .Duration .Second⟩
  | .Duration .Millisecond => .ok ⟨w, 0, .Duration .Millisecond⟩
  | .Duration .Microsecond => .ok ⟨w, 0, .Duration .Microsecond⟩
  | .Duration .Nanosecond => .ok ⟨w, 0, .Duration .Nanosecond⟩
  | .Timestamp .Second tz => .ok ⟨w, 0, .Timestamp .Second tz⟩
  | .Timestamp .Millisecond tz => .ok ⟨w, 0, .Timestamp .Millisecond tz⟩
  | .Timestamp .Microsecond tz => .ok ⟨w, 0, .Timestamp .Microsecond tz⟩
  | .Timestamp .Nanosecond tz => .ok ⟨w, 0, .Timestamp .Nanosecond tz⟩
  | .Utf8 => .ok ⟨w, 0, .Utf8⟩
  | .Binary => .ok ⟨w, 0, .Binary⟩
  | t => .error (.NotYetImplemented t)

/-- `build_empty_fixed_size_list_array`: same dispatch for the
fixed-size variant (stride-0 builder). -/
def build_empty_fixed_size_list_array (item_type : DataType) :
    Except ArrowError EmptyFixedSizeListArray :=
  match item_type with
  | .UInt8 => .ok ⟨0, .UInt8⟩
  | .UInt16 => .ok ⟨0, .UInt16⟩
  | .UInt32 => .ok ⟨0, .UInt32⟩
  | .UInt64 => .ok ⟨0, .UInt64⟩
  | .Int8 => .ok ⟨0, .Int8⟩
  | .Int16 => .ok ⟨0, .Int16⟩
  | .Int32 => .ok ⟨0, .Int32⟩
  | .Int64 => .ok ⟨0, .Int64⟩
  | .Float32 => .ok ⟨0, .Float32⟩
  | .Float64 => .ok ⟨0, .Float64⟩
  | .Boolean => .ok ⟨0, .Boolean⟩
  | .Date32 u => .ok ⟨0, .Date32 u⟩
  | .Date64 u => .ok ⟨0, .Date64 u⟩
  | .Time32 .Second => .ok ⟨0, .Time32 .Second⟩
  | .Time32 .Millisecond => .ok ⟨0, .Time32 .Millisecond⟩
  | .Time64 .Microsecond => .ok ⟨0, .Time64 .Microsecond⟩
  | .Time64 .Nanosecond => .ok ⟨0, .Time64 .Nanosecond⟩
  | .Duration .Second => .ok ⟨0, .Duration .Second⟩
  | .Duration .Millisecond => .ok ⟨0, .Duration .Millisecond⟩
  | .Duration .Microsecond => .ok ⟨0, .Duration .Microsecond⟩
  | .Duration .Nanosecond => .ok ⟨0, .Duration .Nanosecond⟩
  | .Timestamp .Second tz => .ok ⟨0, .Timestamp .Second tz⟩
  | .Timestamp .Millisecond tz => .ok ⟨0, .Timestamp .Millisecond tz⟩
  | .Timestamp .Microsecond tz => .ok ⟨0, .Timestamp .Microsecond tz⟩
  | .Timestamp .Nanosecond tz => .ok ⟨0, .Timestamp .Nanosecond tz⟩
  | .Utf8 => .ok ⟨0, .Utf8⟩
  | .Binary => .ok ⟨0, .Binary⟩
  | t => .error (.NotYetImplemented t)

/-- The supported element-type set as the claim enumerates it: all
signed and unsigned integer widths, both float widths, boolean, the
listed date/time/timestamp/duration units, UTF-8 text and binary.
Stated independently of the factories, to be compared with them. -/
def claimSupportedElementType : DataType → Bool
  | .Int8 | .Int16 | .Int32 | .Int64 => true
  | .UInt8 | .UInt16 | .UInt32 | .UInt64 => true
  | .Float32 | .Float64 => true
  | .Boolean => true
  | .Date32 _ | .Date64 _ => true
  | .Time32 .Second | .Time32 .Millisecond => true
  | .Time64 .Microsecond | .Time64 .Nanosecond => true
  | .Duration _ => true
  | .Timestamp _ _ => true
  | .Utf8 | .Binary => true
  | _ => false

/-- Field name used by the concrete scenario data. -/
def itemFieldName : String :=
  "item"

/-- Scenario A values array: `[0, 1, 2, 3, 4, 5, 6, 7]` of `Int32`. -/
def exValues : ValuesData :=
  ⟨.Int32, 8, 0, [0, 1, 2, 3, 4, 5, 6, 7]⟩

/-- Scenario A offset buffer: `[0, 3, 6, 8]`. -/
def exOffsets : List Int :=
  [0, 3, 6, 8]

/-- Scenario A snapshot: a 3-element `List<Int32>` over `exValues`. -/
def exListData : ArrayData :=
  ⟨.List itemFieldName .Int32 false, 3, 0, [exOffsets], [exValues]⟩

/-- Scenario A list array, as `fromData` constructs it. -/
def exListArray : GenericListArray :=
  ⟨.i32, exListData, exValues, exOffsets⟩

/-- Scenario C values array: `[0, 1, 2, 3, 4, 5, 6, 7, 8]` of `Int32`. -/
def exFixedValues : ValuesData :=
  ⟨.Int32, 9, 0, [0, 1, 2, 3, 4, 5, 6, 7, 8]⟩

/-- Scenario C snapshot: a 3-element `FixedSizeList<Int32, 3>`. -/
def exFixedData : ArrayData :=
  ⟨.FixedSizeList itemFieldName .Int32 false 3, 3, 0, [], [exFixedValues]⟩

/-- Scenario C fixed-size list array, as `fromData` constructs it. -/
def exFixedArray : FixedSizeListArray :=
  ⟨exFixedData, exFixedValues, 3⟩

/-- A malformed (decreasing) offset buffer used to exhibit the panic
branch of `GenericListArray::value`. -/
def badOffsets : List Int :=
  [0, 3, 1]

/-- A list array over `badOffsets` (accepted by construction, which only
checks the first entry). -/
def badListArray : GenericListArray :=
  ⟨.i32, ⟨.List itemFieldName .Int32 false, 2, 0, [badOffsets], [exValues]⟩,
    exValues, badOffsets⟩

/-- Snapshot whose offset buffer starts at a non-zero entry (the
`test_list_array_invalid_value_offset_start` data). -/
def nonzeroStartData : ArrayData :=
  ⟨.List itemFieldName .Int32 false, 3, 0, [[2, 2, 5, 7]], [exValues]⟩

/-- Fixed-size snapshot with stride 3 over 8 values (Scenario E data). -/
def strideMismatchData : ArrayData :=
  ⟨.FixedSizeList itemFieldName .Int32 false 3, 3, 0, [], [⟨.Int32, 8, 0, [0, 1, 2, 3, 4, 5, 6, 7]⟩]⟩

/-- Fixed-size snapshot whose logical offset makes the 32-bit offset
arithmetic wrap: stride 1, logical offset `2 ^ 31`. -/
def wrapFixedData : ArrayData :=
  ⟨.FixedSizeList itemFieldName .Int32 false 1, 1, 2 ^ 31, [], [⟨.Int32, 1, 0, [0]⟩]⟩

/-- The fixed-size list array over `wrapFixedData`. -/
def wrapFixedArray : FixedSizeListArray :=
  ⟨wrapFixedData, ⟨.Int32, 1, 0, [0]⟩, 1⟩

/-- The documented precondition on an offset buffer of width `bits`:
every entry is a non-negative machine integer of that width, and the
entries are non-decreasing. -/
def wellFormedOffsets (bits : Nat) (l : List Int) : Prop :=
  (∀ j, j < l.length → 0 ≤ l.getD j 0 ∧ l.getD j 0 < 2 ^ (bits - 1)) ∧
  (∀ j, j < l.length - 1 → l.getD j 0 ≤ l.getD (j + 1) 0)

instance (bits : Nat) (l : List Int) : Decidable (wellFormedOffsets bits l) := by
  unfold wellFormedOffsets
  infer_instance

/-! ## Helper lemmas -/

theorem OffsetWidth.bits_pos (w : OffsetWidth) : 0 < w.bits := by
  cases w <;> simp [OffsetWidth.bits]

theorem wrapInt_eq_self (bits : Nat) (n : Int) (hb : 0 < bits)
    (h1 : -(2 ^ (bits - 1)) ≤ n) (h2 : n < 2 ^ (bits - 1)) : wrapInt bits n = n := by
  obtain ⟨b, rfl⟩ : ∃ b, bits = b + 1 := ⟨bits - 1, by omega⟩
  unfold wrapInt
  simp only [Nat.add_sub_cancel] at *
  have hp : (2 : Int) ^ (b + 1) = 2 ^ b * 2 := pow_succ 2 b
  have h0 : (0 : Int) ≤ n + 2 ^ b := by linarith
  have h3 : n + 2 ^ b < 2 ^ (b + 1) := by rw [hp]; linarith
  rw [Int.emod_eq_of_lt h0 h3]
  ring

theorem toI32_range (n : Int) : -(2 ^ 31) ≤ toI32 n ∧ toI32 n < 2 ^ 31 := by
  unfold toI32 wrapInt
  have h1 : 0 ≤ (n + 2 ^ (32 - 1)) % 2 ^ 32 := Int.emod_nonneg _ (by norm_num)
  have h2 : (n + 2 ^ (32 - 1)) % 2 ^ 32 < 2 ^ 32 := Int.emod_lt_of_pos _ (by norm_num)
  norm_num at *
  omega

theorem toI32_emod (n : Int) : toI32 n % 2 ^ 32 = n % 2 ^ 32 := by
  unfold toI32 wrapInt
  norm_num
  omega

theorem toI32_mul_emod (n s : Int) :
    toI32 (toI32 n * s) % 2 ^ 32 = n * s % 2 ^ 32 := by
  have h1 := toI32_emod (toI32 n * s)
  have h3 := toI32_emod n
  calc toI32 (toI32 n * s) % 2 ^ 32
      = toI32 n * s % 2 ^ 32 := h1
    _ = toI32 n % 2 ^ 32 * (s % 2 ^ 32) % 2 ^ 32 := Int.mul_emod _ _ _
    _ = n % 2 ^ 32 * (s % 2 ^ 32) % 2 ^ 32 := by rw [h3]
    _ = n * s % 2 ^ 32 := (Int.mul_emod _ _ _).symm

theorem eq_of_emod_pow32_eq {a b : Int} (h : a % 2 ^ 32 = b % 2 ^ 32)
    (ha1 : -(2 ^ 31) ≤ a) (ha2 : a < 2 ^ 31)
    (hb1 : -(2 ^ 31) ≤ b) (hb2 : b < 2 ^ 31) : a = b := by
  norm_num at *
  omega

theorem toI32_mul_eq_of_fit (n s : Int) (h1 : -(2 ^ 31) ≤ n * s)
    (h2 : n * s < 2 ^ 31) : toI32 (toI32 n * s) = n * s :=
  eq_of_emod_pow32_eq (toI32_mul_emod n s) (toI32_range _).1 (toI32_range _).2 h1 h2

theorem natCast_mul_toNat (m : Nat) (s : Int) (hs : 0 ≤ s) :
    ((m : Int) * s).toNat = m * s.toNat := by
  obtain ⟨k, rfl⟩ := Int.eq_ofNat_of_zero_le hs
  rw [← Int.natCast_mul, Int.toNat_natCast, Int.toNat_natCast]

theorem usizeOfI32_eq (n : Int) (h0 : 0 ≤ n) (h1 : n < 2 ^ 64) :
    usizeOfI32 n = n.toNat := by
  unfold usizeOfI32
  rw [Int.emod_eq_of_lt h0 h1]

theorem genericListFromData_ok {w : OffsetWidth} {d : ArrayData}
    {a : GenericListArray} (h : GenericListArray.fromData w d = .ok a) :
    d.buffers.length = 1 ∧ d.childData.length = 1 ∧
      (d.buffers.getD 0 []).getD 0 0 = 0 ∧
      a = ⟨w, d, d.childData.getD 0 default, d.buffers.getD 0 []⟩ := by
  unfold GenericListArray.fromData at h
  split at h
  · exact Except.noConfusion h
  split at h
  · exact Except.noConfusion h
  split at h
  · rename_i h1 h2 h3
    injection h with h4
    exact ⟨by omega, by omega, h3, h4.symm⟩
  · exact Except.noConfusion h

theorem fixedSizeListFromData_ok {d : ArrayData} {a : FixedSizeListArray}
    (h : FixedSizeListArray.fromData d = .ok a) :
    d.buffers.length = 0 ∧ d.childData.length = 1 ∧
      (∃ nm t nb, d.dataType = .FixedSizeList nm t nb a.length) ∧
      a = ⟨d, d.childData.getD 0 default, a.length⟩ ∧
      (0 < a.length → (d.childData.getD 0 default).len % a.length.toNat = 0) := by
  unfold FixedSizeListArray.fromData at h
  split at h
  · exact Except.noConfusion h
  split at h
  · exact Except.noConfusion h
  split at h
  · rename_i h1 h2 nm t nb len heq
    split at h
    · split at h
      · exact Except.noConfusion h
      · rename_i hpos hdvd
        injection h with h4
        subst h4
        refine ⟨by omega, by omega, ⟨nm, t, nb, heq⟩, rfl, fun _ => ?_⟩
        dsimp only
        omega
    · rename_i hpos
      injection h with h4
      subst h4
      exact ⟨by omega, by omega, ⟨nm, t, nb, heq⟩, rfl, fun hc => absurd hc hpos⟩
  · exact Except.noConfusion h

/-! ## Claim theorems -/

/-- C4: constructing a variable-width list array from a snapshot whose
offset buffer's absolute entry at index 0 is non-zero always fails with
`OffsetConventionViolation`, whatever the snapshot's length, logical
offset and remaining offset content. -/
theorem nonzero_first_offset_always_rejected (w : OffsetWidth) (d : ArrayData)
    (hb : d.buffers.length = 1) (hc : d.childData.length = 1)
    (h0 : (d.buffers.getD 0 []).getD 0 0 ≠ 0) :
    GenericListArray.fromData w d = .error .OffsetConventionViolation := by
  unfold GenericListArray.fromData
  rw [if_neg (by omega), if_neg (by omega), if_neg h0]

/-- C4 witness: the `[2, 2, 5, 7]` offset buffer of the source's
`test_list_array_invalid_value_offset_start` is rejected. -/
theorem nonzero_first_offset_always_rejected_witness :
    GenericListArray.fromData .i32 nonzeroStartData =
      .error .OffsetConventionViolation :=
  nonzero_first_offset_always_rejected .i32 nonzeroStartData
    (by decide) (by decide) (by decide)

/-- C5: with the fixed-size shape satisfied and a `FixedSizeList` type
tag of stride `s`, construction fails with `StrideMismatch` exactly when
`0 < s` and the values length is not a multiple of `s`; it succeeds on
the divisibility check otherwise, and `s = 0` imposes no divisibility
requirement. -/
theorem fixed_stride_divisibility (d : ArrayData) (nm : String) (t : DataType)
    (nb : Bool) (s : Int)
    (hb : d.buffers.length = 0) (hc : d.childData.length = 1)
    (ht : d.dataType = .FixedSizeList nm t nb s) :
    (0 < s → (d.childData.getD 0 default).len % s.toNat ≠ 0 →
      FixedSizeListArray.fromData d = .error .StrideMismatch) ∧
    (0 < s → (d.childData.getD 0 default).len % s.toNat = 0 →
      FixedSizeListArray.fromData d = .ok ⟨d, d.childData.getD 0 default, s⟩) ∧
    (s = 0 →
      FixedSizeListArray.fromData d = .ok ⟨d, d.childData.getD 0 default, s⟩) := by
  refine ⟨fun hs hm => ?_, fun hs hm => ?_, fun hs => ?_⟩
  · unfold FixedSizeListArray.fromData
    simp only [hb, hc, ht]
    simp [hs]
    simpa using hm
  · unfold FixedSizeListArray.fromData
    simp only [hb, hc, ht]
    simp [hs]
    simpa using hm
  · unfold FixedSizeListArray.fromData
    simp only [hb, hc, ht]
    simp [hs]

/-- C5 witness: stride 3 over a values array of length 8 (Scenario E)
fails with `StrideMismatch`. -/
theorem fixed_stride_divisibility_witness :
    FixedSizeListArray.fromData strideMismatchData = .error .StrideMismatch :=
  (fixed_stride_divisibility strideMismatchData itemFieldName .Int32 false 3
    (by decide) (by decide) rfl).1 (by decide) (by decide)

/-- C6: construction enforces the shape contract: a variable-width list
fails with `ShapeMismatch` unless exactly one raw buffer and exactly one
child array are present; a fixed-size list fails with `ShapeMismatch`
unless zero raw buffers and exactly one child array are present, and
fails with `TypeTagMismatch` when the type descriptor is not a
fixed-size list. -/
theorem construction_shape_contract :
    (∀ (w : OffsetWidth) (d : ArrayData), d.buffers.length ≠ 1 →
      GenericListArray.fromData w d = .error (.ShapeMismatch .buffer)) ∧
    (∀ (w : OffsetWidth) (d : ArrayData), d.buffers.length = 1 →
      d.childData.length ≠ 1 →
      GenericListArray.fromData w d = .error (.ShapeMismatch .childArray)) ∧
    (∀ (w : OffsetWidth) (d : ArrayData), d.buffers.length = 1 →
      d.childData.length = 1 →
      ∀ p, GenericListArray.fromData w d ≠ .error (.ShapeMismatch p)) ∧
    (∀ d : ArrayData, d.buffers.length ≠ 0 →
      FixedSizeListArray.fromData d = .error (.ShapeMismatch .buffer)) ∧
    (∀ d : ArrayData, d.buffers.length = 0 → d.childData.length ≠ 1 →
      FixedSizeListArray.fromData d = .error (.ShapeMismatch .childArray)) ∧
    (∀ d : ArrayData, d.buffers.length = 0 → d.childData.length = 1 →
      ∀ p, FixedSizeListArray.fromData d ≠ .error (.ShapeMismatch p)) ∧
    (∀ d : ArrayData, d.buffers.length = 0 → d.childData.length = 1 →
      (∀ nm t nb s, d.dataType ≠ .FixedSizeList nm t nb s) →
      FixedSizeListArray.fromData d = .error .TypeTagMismatch) := by
  refine ⟨fun w d hb => ?_, fun w d hb hc => ?_, fun w d hb hc p => ?_,
    fun d hb => ?_, fun d hb hc => ?_, fun d hb hc p => ?_, fun d hb hc ht => ?_⟩
  · unfold GenericListArray.fromData
    simp [hb]
  · unfold GenericListArray.fromData
    simp [hb, hc]
  · unfold GenericListArray.fromData
    rw [if_neg (by omega), if_neg (by omega)]
    split <;> simp
  · unfold FixedSizeListArray.fromData
    simp [hb]
  · unfold FixedSizeListArray.fromData
    simp [hb, hc]
  · unfold FixedSizeListArray.fromData
    rw [if_neg (by omega), if_neg (by omega)]
    split
    · split
      · split <;> simp
      · simp
    · simp
  · unfold FixedSizeListArray.fromData
    rw [if_neg (by omega), if_neg (by omega)]
    split
    · rename_i nm t nb s heq
      exact absurd heq (ht nm t nb s)
    · rfl

/-- C6 witness: a snapshot with no buffer, one with two children, and a
fixed-size snapshot with a wrong type tag are each rejected as the
contract says. -/
theorem construction_shape_contract_witness :
    GenericListArray.fromData .i32
        ⟨.List itemFieldName .Int32 false, 3, 0, [], [exValues]⟩ =
      .error (.ShapeMismatch .buffer) ∧
    GenericListArray.fromData .i32
        ⟨.List itemFieldName .Int32 false, 3, 0, [exOffsets], [exValues, exValues]⟩ =
      .error (.ShapeMismatch .childArray) ∧
    FixedSizeListArray.fromData
        ⟨.Int32, 3, 0, [], [exFixedValues]⟩ =
      .error .TypeTagMismatch :=
  ⟨construction_shape_contract.1 .i32 _ (by decide),
    construction_shape_contract.2.1 .i32 _ (by decide) (by decide),
    construction_shape_contract.2.2.2.2.2.2 _ (by decide) (by decide)
      (fun nm t nb s h => DataType.noConfusion h)⟩

/-- C7: buffer-memory accounting is asymmetric: a constructed
variable-width list reports only the offsets buffer, excluding the
values array's buffers, while a constructed fixed-size list reports the
snapshot's accounting plus the values array's accounting (the snapshot
itself owning no buffers, this is exactly the values array's bytes). -/
theorem memory_accounting_asymmetry :
    (∀ (w : OffsetWidth) (d : ArrayData) (a : GenericListArray),
      GenericListArray.fromData w d = .ok a →
      a.get_buffer_memory_size = (d.buffers.getD 0 []).length) ∧
    (∀ (d : ArrayData) (a : FixedSizeListArray),
      FixedSizeListArray.fromData d = .ok a →
      a.get_buffer_memory_size =
        d.get_buffer_memory_size + a.values.get_buffer_memory_size ∧
      a.get_buffer_memory_size = a.values.get_buffer_memory_size) := by
  constructor
  · intro w d a h
    obtain ⟨hb, hc, h0, rfl⟩ := genericListFromData_ok h
    obtain ⟨buf, hbuf⟩ := List.length_eq_one.mp hb
    simp [GenericListArray.get_buffer_memory_size,
      ArrayData.get_buffer_memory_size, hbuf]
  · intro d a h
    obtain ⟨hb, hc, hex, ha, hdvd⟩ := fixedSizeListFromData_ok h
    have hbnil : d.buffers = [] := List.length_eq_zero.mp hb
    have hdata : a.data = d := by rw [ha]
    constructor
    · rw [FixedSizeListArray.get_buffer_memory_size, hdata]
    · rw [FixedSizeListArray.get_buffer_memory_size, hdata,
        ArrayData.get_buffer_memory_size, hbnil]
      simp

/-- C7 witness: both directions on the scenario arrays — the variable
list over 4 offsets and 8 values reports 4; the fixed-size list over 9
values and no offsets buffer reports 9. -/
theorem memory_accounting_asymmetry_witness :
    exListArray.get_buffer_memory_size = 4 ∧
    exFixedArray.get_buffer_memory_size = 9 := by
  have h1 := memory_accounting_asymmetry.1 .i32 exListData exListArray rfl
  have h2 := memory_accounting_asymmetry.2 exFixedData exFixedArray rfl
  exact ⟨h1.trans (by decide), h2.2.trans (by decide)⟩

/-- C1: for every variable-width list array with logical offset `o`
(either offset width) and index `i` in `[0, len)` with the offset-buffer
entries at `o + i` and `o + i + 1` present, non-negative, ordered and in
the machine-integer range of the width, `value_offset(i)` equals the
offset-buffer entry at absolute position `o + i`, `value_length(i)`
equals the entry at `o + i + 1` minus the entry at `o + i`, and
`value(i)` returns the zero-copy slice of the shared values array
spanning `[value_offset(i), value_offset(i) + value_length(i))`. -/
theorem variable_list_element_access (a : GenericListArray) (i : Nat)
    (hlen : i < a.data.len)
    (hb : a.data.offset + i + 1 < a.value_offsets.length)
    (h0 : 0 ≤ a.value_offsets.getD (a.data.offset + i) 0)
    (hmono : a.value_offsets.getD (a.data.offset + i) 0 ≤
      a.value_offsets.getD (a.data.offset + i + 1) 0)
    (hw : a.value_offsets.getD (a.data.offset + i + 1) 0 <
      2 ^ (a.offsetWidth.bits - 1)) :
    a.value_offset i = a.value_offsets.get ⟨a.data.offset + i, by omega⟩ ∧
    a.value_length i = a.value_offsets.get ⟨a.data.offset + i + 1, by omega⟩ -
      a.value_offsets.get ⟨a.data.offset + i, by omega⟩ ∧
    a.value i =
      some (a.values.slice (a.value_offset i).toNat (a.value_length i).toNat) := by
  have hg1 : a.value_offsets.getD (a.data.offset + i) 0 =
      a.value_offsets.get ⟨a.data.offset + i, by omega⟩ := by
    rw [List.getD_eq_getElem _ _ (by omega)]
    rfl
  have hg2 : a.value_offsets.getD (a.data.offset + i + 1) 0 =
      a.value_offsets.get ⟨a.data.offset + i + 1, by omega⟩ := by
    rw [List.getD_eq_getElem _ _ (by omega)]
    rfl
  have hvo : a.value_offset i = a.value_offsets.getD (a.data.offset + i) 0 := rfl
  have hvl : a.value_length i =
      a.value_offsets.getD (a.data.offset + i + 1) 0 -
        a.value_offsets.getD (a.data.offset + i) 0 := by
    unfold GenericListArray.value_length GenericListArray.value_offset_at
    have e1 : i + a.data.offset + 1 = a.data.offset + i + 1 := by omega
    have e2 : i + a.data.offset = a.data.offset + i := by omega
    rw [e1, e2]
    have hp : (0 : Int) < 2 ^ (a.offsetWidth.bits - 1) := by positivity
    exact wrapInt_eq_self _ _ a.offsetWidth.bits_pos (by omega) (by omega)
  refine ⟨hvo.trans hg1, ?_, ?_⟩
  · rw [hvl, hg1, hg2]
  · have hvo0 : 0 ≤ a.value_offset i := hvo ▸ h0
    have hvl0 : 0 ≤ a.value_length i := by rw [hvl]; omega
    unfold GenericListArray.value usizeOfInt
    rw [if_pos hvo0, if_pos hvl0]
    rfl

/-- C1 witness: Scenario A (`offsets = [0, 3, 6, 8]`, `values = [0..7]`)
at index 1: offset 3, length 3, and the slice `values[3..6]`. -/
theorem variable_list_element_access_witness :
    exListArray.value_offset 1 = 3 ∧ exListArray.value_length 1 = 3 ∧
    exListArray.value 1 = some (exValues.slice 3 3) := by
  have h := variable_list_element_access exListArray 1 (by decide) (by decide)
    (by decide) (by decide) (by decide)
  exact ⟨h.1.trans (by decide), (h.2.1).trans (by decide), (h.2.2).trans (by decide)⟩

/-- C10: `GenericListArray::value(i)` converts the computed offset and
length to `usize` with `unwrap`, so a negative `value_offset(i)` or a
negative `value_length(i)` makes `value(i)` panic (modelled as `none`)
instead of returning a slice; under the documented precondition — an
offset buffer of non-negative, non-decreasing machine integers covering
`[offset, offset + len]` — the panic branch is unreachable. -/
theorem variable_list_value_unwrap_panic (a : GenericListArray) (i : Nat) :
    ((a.value_offset i < 0 ∨ a.value_length i < 0) → a.value i = none) ∧
    (i < a.data.len →
      a.data.offset + a.data.len + 1 ≤ a.value_offsets.length →
      wellFormedOffsets a.offsetWidth.bits a.value_offsets →
      (a.value i).isSome = true) := by
  constructor
  · intro h
    unfold GenericListArray.value usizeOfInt
    rcases h with h | h
    · rw [if_neg (by omega)]
      rfl
    · by_cases h2 : 0 ≤ a.value_offset i
      · rw [if_pos h2, if_neg (by omega)]
        rfl
      · rw [if_neg h2]
        rfl
  · intro hlen hcov ⟨hrange, hmono⟩
    have hp : (0 : Int) < 2 ^ (a.offsetWidth.bits - 1) := by positivity
    have hb1 : a.data.offset + i < a.value_offsets.length := by omega
    have hb2 : a.data.offset + i + 1 < a.value_offsets.length := by omega
    have h0 := hrange (a.data.offset + i) hb1
    have h1 := hrange (a.data.offset + i + 1) hb2
    have hm := hmono (a.data.offset + i) (by omega)
    have hvo0 : 0 ≤ a.value_offset i := h0.1
    have hvl0 : 0 ≤ a.value_length i := by
      unfold GenericListArray.value_length GenericListArray.value_offset_at
      have e1 : i + a.data.offset + 1 = a.data.offset + i + 1 := by omega
      have e2 : i + a.data.offset = a.data.offset + i := by omega
      rw [e1, e2, wrapInt_eq_self _ _ a.offsetWidth.bits_pos (by omega) (by omega)]
      omega
    unfold GenericListArray.value usizeOfInt
    rw [if_pos hvo0, if_pos hvl0]
    rfl

/-- C10 witness: over the decreasing offsets `[0, 3, 1]` the computed
length of element 1 is negative and `value` panics (`none`); over the
well-formed Scenario A offsets, `value 1` succeeds. -/
theorem variable_list_value_unwrap_panic_witness :
    badListArray.value 1 = none ∧ (exListArray.value 1).isSome = true :=
  ⟨(variable_list_value_unwrap_panic badListArray 1).1 (Or.inr (by decide)),
    (variable_list_value_unwrap_panic exListArray 1).2 (by decide) (by decide)
      (by decide)⟩

/-- C3: slicing a list array (variable or fixed) to `(start, len)` gives
a view whose element reads agree with the original at `start + i`: the
sliced snapshot reconstructs successfully, and `value_offset`,
`value_length` and `value` at `i` equal the original's at `start + i`,
for all `i` in `[0, len)`. -/
theorem list_slice_view_semantics :
    (∀ (w : OffsetWidth) (d : ArrayData) (a : GenericListArray),
      GenericListArray.fromData w d = .ok a →
      ∀ start len i, i < len →
        GenericListArray.fromData w (d.slice start len) =
          .ok ⟨w, d.slice start len, a.values, a.value_offsets⟩ ∧
        (GenericListArray.mk w (d.slice start len) a.values
            a.value_offsets).value_offset i = a.value_offset (start + i) ∧
        (GenericListArray.mk w (d.slice start len) a.values
            a.value_offsets).value_length i = a.value_length (start + i) ∧
        (GenericListArray.mk w (d.slice start len) a.values
            a.value_offsets).value i = a.value (start + i)) ∧
    (∀ (d : ArrayData) (a : FixedSizeListArray),
      FixedSizeListArray.fromData d = .ok a →
      ∀ start len i, i < len →
        FixedSizeListArray.fromData (d.slice start len) =
          .ok ⟨d.slice start len, a.values, a.length⟩ ∧
        (FixedSizeListArray.mk (d.slice start len) a.values
            a.length).value_offset i = a.value_offset (start + i) ∧
        (FixedSizeListArray.mk (d.slice start len) a.values
            a.length).value_length = a.value_length ∧
        (FixedSizeListArray.mk (d.slice start len) a.values
            a.length).value i = a.value (start + i)) := by
  constructor
  · intro w d a h start len i hi
    obtain ⟨hb, hc, h0, rfl⟩ := genericListFromData_ok h
    have hok : GenericListArray.fromData w (d.slice start len) =
        .ok ⟨w, d.slice start len, d.childData.getD 0 default, d.buffers.getD 0 []⟩ := by
      unfold GenericListArray.fromData ArrayData.slice
      rw [if_neg (by simpa using (by omega : ¬d.buffers.length ≠ 1)),
        if_neg (by simpa using (by omega : ¬d.childData.length ≠ 1)), if_pos h0]
    have hvo : (GenericListArray.mk w (d.slice start len)
        (d.childData.getD 0 default) (d.buffers.getD 0 [])).value_offset i =
        (GenericListArray.mk w d (d.childData.getD 0 default)
          (d.buffers.getD 0 [])).value_offset (start + i) := by
      unfold GenericListArray.value_offset GenericListArray.value_offset_at
        ArrayData.slice
      dsimp only
      rw [show d.offset + start + i = d.offset + (start + i) from by omega]
    have hvl : (GenericListArray.mk w (d.slice start len)
        (d.childData.getD 0 default) (d.buffers.getD 0 [])).value_length i =
        (GenericListArray.mk w d (d.childData.getD 0 default)
          (d.buffers.getD 0 [])).value_length (start + i) := by
      unfold GenericListArray.value_length GenericListArray.value_offset_at
        ArrayData.slice
      dsimp only
      rw [show i + (d.offset + start) + 1 = start + i + d.offset + 1 from by omega,
        show i + (d.offset + start) = start + i + d.offset from by omega]
    refine ⟨hok, hvo, hvl, ?_⟩
    unfold GenericListArray.value
    rw [hvo, hvl]
  · intro d a h start len i hi
    obtain ⟨hb, hc, ⟨nm, t, nb, heq⟩, ha, hdvd⟩ := fixedSizeListFromData_ok h
    have hvalues : a.values = d.childData.getD 0 default := by rw [ha]
    have hdata : a.data = d := by rw [ha]
    have hok : FixedSizeListArray.fromData (d.slice start len) =
        .ok ⟨d.slice start len, a.values, a.length⟩ := by
      unfold FixedSizeListArray.fromData ArrayData.slice
      dsimp only
      rw [if_neg (by simpa using (by omega : ¬d.buffers.length ≠ 0)),
        if_neg (by simpa using (by omega : ¬d.childData.length ≠ 1)), heq]
      dsimp only
      rw [hvalues]
      by_cases hpos : 0 < a.length
      · rw [if_pos hpos, if_neg (by simpa using hdvd hpos)]
      · rw [if_neg hpos]
    have hvo : (FixedSizeListArray.mk (d.slice start len) a.values
        a.length).value_offset i = a.value_offset (start + i) := by
      unfold FixedSizeListArray.value_offset FixedSizeListArray.value_offset_at
        ArrayData.slice
      dsimp only
      rw [hdata, show d.offset + start + i = d.offset + (start + i) from by omega]
    have hval : (FixedSizeListArray.mk (d.slice start len) a.values
        a.length).value i = a.value (start + i) := by
      unfold FixedSizeListArray.value FixedSizeListArray.value_length
      dsimp only
      rw [hvo]
    exact ⟨hok, hvo, rfl, hval⟩

/-- C3 witness: Scenario B — over `offsets = [0, 3, 6, 8]` and
`values = [0..7]`, the `(1, 3)` slice's element 0 equals the original's
element 1 (`[3, 4, 5]`) and its `value_offset(1)` is 6. -/
theorem list_slice_view_semantics_witness :
    (GenericListArray.mk .i32 (exListData.slice 1 3) exValues
      exOffsets).value 0 = exListArray.value 1 ∧
    (GenericListArray.mk .i32 (exListData.slice 1 3) exValues
      exOffsets).value_offset 1 = 6 ∧
    exListArray.value 1 = some (exValues.slice 3 3) := by
  have h0 := (list_slice_view_semantics.1 .i32 exListData exListArray rfl
    1 3 0 (by decide)).2.2.2
  have h1 := (list_slice_view_semantics.1 .i32 exListData exListArray rfl
    1 3 1 (by decide)).2.1
  exact ⟨h0, h1.trans (by decide), by decide⟩

/-- C9: `FixedSizeListArray::value_offset` computes entirely in 32-bit
integers — the absolute index is truncated with `as i32` before the
multiplication — so the result always lies in the `i32` range, is
congruent to the mathematical `(logical_offset + i) * stride` modulo
`2 ^ 32`, and equals it exactly whenever that product fits in `i32`. -/
theorem fixed_value_offset_32bit_truncation (a : FixedSizeListArray) (i : Nat) :
    a.value_offset i =
      toI32 (toI32 ((a.data.offset + i : Nat) : Int) * a.length) ∧
    -(2 ^ 31) ≤ a.value_offset i ∧ a.value_offset i < 2 ^ 31 ∧
    a.value_offset i % 2 ^ 32 =
      ((a.data.offset + i : Nat) : Int) * a.length % 2 ^ 32 ∧
    (-(2 ^ 31) ≤ ((a.data.offset + i : Nat) : Int) * a.length →
      ((a.data.offset + i : Nat) : Int) * a.length < 2 ^ 31 →
      a.value_offset i = ((a.data.offset + i : Nat) : Int) * a.length) := by
  have hdef : a.value_offset i =
      toI32 (toI32 ((a.data.offset + i : Nat) : Int) * a.length) := rfl
  have hr := toI32_range (toI32 ((a.data.offset + i : Nat) : Int) * a.length)
  have hm := toI32_mul_emod ((a.data.offset + i : Nat) : Int) a.length
  refine ⟨hdef, by rw [hdef]; exact hr.1, by rw [hdef]; exact hr.2,
    by rw [hdef]; exact hm, fun hf1 hf2 => ?_⟩
  rw [hdef]
  exact toI32_mul_eq_of_fit _ _ hf1 hf2

/-- C9 witness: at the Scenario C fixed-size array (offset 0, stride 3)
the product fits in `i32` and `value_offset(2)` is exactly `6`. -/
theorem fixed_value_offset_32bit_truncation_witness :
    exFixedArray.value_offset 2 = 6 := by
  have h := (fixed_value_offset_32bit_truncation exFixedArray 2).2.2.2.2
    (by decide) (by decide)
  exact h.trans (by decide)

/-- C2 counterexample: a fixed-size list array with logical offset
`2 ^ 31` and stride 1 — accepted by construction — has
`value_offset(0) = -(2 ^ 31)` because the 32-bit arithmetic wraps, not
the mathematical `(o + 0) * s = 2 ^ 31`. -/
theorem fixed_value_offset_wraps_counterexample :
    FixedSizeListArray.fromData wrapFixedData = .ok wrapFixedArray ∧
    wrapFixedArray.value_offset 0 = -(2 ^ 31) ∧
    wrapFixedArray.value_offset 0 ≠
      ((wrapFixedData.offset + 0 : Nat) : Int) * wrapFixedArray.length := by
  refine ⟨rfl, by decide, by decide⟩

/-- C2 (amended): for a fixed-size list array with non-negative stride
`s` such that `(o + i + 1) * s` fits below `2 ^ 31`, `value_offset(i)`
equals `(o + i) * s`, `value_length()` is the single constant `s`
independent of any index, and element `i` is the slice of the values
array spanning `[(o + i) * s, (o + i + 1) * s)`; outside the 32-bit
range the offset arithmetic wraps instead. -/
theorem fixed_list_element_access (a : FixedSizeListArray) (i : Nat)
    (hs : 0 ≤ a.length)
    (hfit : ((a.data.offset + i + 1 : Nat) : Int) * a.length < 2 ^ 31) :
    a.value_offset i = ((a.data.offset + i : Nat) : Int) * a.length ∧
    a.value_length = a.length ∧
    a.value i =
      a.values.slice ((a.data.offset + i) * a.length.toNat) a.length.toNat := by
  have hcast : ((a.data.offset + i + 1 : Nat) : Int) =
      ((a.data.offset + i : Nat) : Int) + 1 := by push_cast; ring
  have hprod0 : 0 ≤ ((a.data.offset + i : Nat) : Int) * a.length :=
    mul_nonneg (Int.natCast_nonneg _) hs
  have hstep : ((a.data.offset + i : Nat) : Int) * a.length ≤
      ((a.data.offset + i + 1 : Nat) : Int) * a.length := by
    rw [hcast]
    exact mul_le_mul_of_nonneg_right (by omega) hs
  have hprod1 : ((a.data.offset + i : Nat) : Int) * a.length < 2 ^ 31 := by
    omega
  have hslen : a.length < 2 ^ 31 := by
    have h1 : a.length * 1 ≤ ((a.data.offset + i + 1 : Nat) : Int) * a.length := by
      rw [mul_comm ((a.data.offset + i + 1 : Nat) : Int) a.length]
      exact mul_le_mul_of_nonneg_left (by omega) hs
    omega
  have hvo : a.value_offset i = ((a.data.offset + i : Nat) : Int) * a.length :=
    toI32_mul_eq_of_fit _ _ (by omega) hprod1
  refine ⟨hvo, rfl, ?_⟩
  unfold FixedSizeListArray.value FixedSizeListArray.value_length
  rw [hvo, usizeOfI32_eq _ hprod0 (by omega), usizeOfI32_eq _ hs (by omega),
    natCast_mul_toNat _ _ hs]

/-- C2 witness (amended claim at Scenario C): values `[0..8]`, stride 3 —
`value_offset(2) = 6`, `value_length() = 3`, element 2 is the slice
`values[6..9]`. -/
theorem fixed_list_element_access_witness :
    exFixedArray.value_offset 2 = 6 ∧ exFixedArray.value_length = 3 ∧
    exFixedArray.value 2 = exFixedValues.slice 6 3 := by
  have h := fixed_list_element_access exFixedArray 2 (by decide) (by decide)
  exact ⟨h.1.trans (by decide), h.2.1.trans (by decide), h.2.2.trans (by decide)⟩

/-- C8: both empty-list factories succeed with a length-0 list array
whose element type matches the request exactly on the supported set (all
signed/unsigned integer widths, both float widths, boolean, the listed
date/time/timestamp/duration units, UTF-8 text, binary), and fail with
the recoverable `NotYetImplemented` error carrying the rejected type on
everything outside it. -/
theorem empty_list_factory_dispatch (w : OffsetWidth) (t : DataType) :
    (claimSupportedElementType t = true →
      build_empty_list_array w t = .ok ⟨w, 0, t⟩ ∧
      build_empty_fixed_size_list_array t = .ok ⟨0, t⟩) ∧
    (claimSupportedElementType t = false →
      build_empty_list_array w t = .error (.NotYetImplemented t) ∧
      build_empty_fixed_size_list_array t = .error (.NotYetImplemented t)) := by
  cases t
  case Time32 u =>
    cases u <;> constructor <;> intro h <;>
      first
        | exact ⟨rfl, rfl⟩
        | simp [claimSupportedElementType] at h
  case Time64 u =>
    cases u <;> constructor <;> intro h <;>
      first
        | exact ⟨rfl, rfl⟩
        | simp [claimSupportedElementType] at h
  case Duration u =>
    cases u <;> constructor <;> intro h <;>
      first
        | exact ⟨rfl, rfl⟩
        | simp [claimSupportedElementType] at h
  case Timestamp u tz =>
    cases u <;> constructor <;> intro h <;>
      first
        | exact ⟨rfl, rfl⟩
        | simp [claimSupportedElementType] at h
  all_goals
    constructor <;> intro h <;>
      first
        | exact ⟨rfl, rfl⟩
        | simp [claimSupportedElementType] at h

/-- C8 witness: `Utf8` at width `i32` yields a length-0 list of UTF-8
text in both factories; the unsupported `Null` type yields the
recoverable error carrying `Null`. -/
theorem empty_list_factory_dispatch_witness :
    build_empty_list_array .i32 .Utf8 = .ok ⟨.i32, 0, .Utf8⟩ ∧
    build_empty_fixed_size_list_array .Utf8 = .ok ⟨0, .Utf8⟩ ∧
    build_empty_list_array .i32 .Null = .error (.NotYetImplemented .Null) ∧
    build_empty_fixed_size_list_array .Null = .error (.NotYetImplemented .Null) :=
  ⟨((empty_list_factory_dispatch .i32 .Utf8).1 rfl).1,
    ((empty_list_factory_dispatch .i32 .Utf8).1 rfl).2,
    ((empty_list_factory_dispatch .i32 .Null).2 rfl).1,
    ((empty_list_factory_dispatch .i32 .Null).2 rfl).2⟩

end Arrow
